import Mathlib

/-!
Shallow embedding of the fail2ban-notifier core (Go) in Lean 4.

The embedding covers:
  * the configuration data model (`Config`, `ConnectorConfig`, `GeoIPConfig`)
    from `internal/config/config.go`;
  * the connector execution engine (`ExecuteAll`, `executeConnector`,
    `TestConnector`, `DiscoverConnectors`) from `internal/connectors/manager.go`;
  * configuration validation (`ValidateConfig`, `validateConnector`);
  * the GeoIP lookup manager (`Lookup`, `getCached`, `setCached`,
    `isPrivateIP`) from `internal/geoip/geoip.go`, together with a model of
    the Go standard library's `net.ParseIP`.

External effects (running a child process, performing an HTTP request,
backend geolocation services, the filesystem) are modelled as oracle
functions passed in as parameters; everything that the Go code computes
purely (string formatting, retry counting, cache bookkeeping, IP parsing
and classification) is embedded as executable Lean definitions.
-/

namespace F2BN

/-- A connector configuration, mirroring Go `config.ConnectorConfig`.
`Settings` (a Go `map[string]string`) is modelled as an association list;
Go `int` fields are modelled as `Int`. -/
structure ConnectorConfig where
  name : String
  type : String
  enabled : Bool
  path : String
  settings : List (String × String)
  timeout : Int
  retryCount : Int
  retryDelay : Int
  description : String
deriving DecidableEq

/-- GeoIP configuration, mirroring Go `config.GeoIPConfig`. -/
structure GeoIPConfig where
  enabled : Bool
  apiKey : String
  service : String
  cache : Bool
  ttl : Int
deriving DecidableEq

/-- The application configuration, mirroring Go `config.Config`
(the `LogLevel` string is carried but never read by the core). -/
structure Config where
  connectors : List ConnectorConfig
  connectorPath : String
  geoip : GeoIPConfig
  debug : Bool
  logLevel : String
  timeout : Int
deriving DecidableEq

/-- Lookup of a key in a settings map (Go `connector.Settings[key]`,
first binding wins — an association-list model of a Go map). -/
def getSetting : List (String × String) → String → Option String
  | [], _ => none
  | (k, v) :: rest, key => if k = key then some v else getSetting rest key

/-- Go `Config.GetEnabledConnectors`: the connectors with `Enabled = true`,
in configuration order. -/
def getEnabledConnectors (c : Config) : List ConnectorConfig :=
  c.connectors.filter (·.enabled)

/-- Go `Config.GetConnectorByName`: the first connector with the given name.
The Go function returns a pointer to the loop's copy of the element, so the
caller receives (and can only mutate) a copy; this is modelled by returning
the connector by value. -/
def getConnectorByName (c : Config) (name : String) : Option ConnectorConfig :=
  c.connectors.find? (fun conn => conn.name == name)

/-! ## Connector execution engine

The outcome of one dispatch of a connector (one `executeScript` or
`executeHTTP` call) is external: it depends on the child process or the
remote HTTP endpoint.  It is modelled by an oracle
`dispatch : Nat → Option String` giving, for each attempt index, `none` on
success and `some errMsg` on failure.  The one part of dispatch that the Go
code decides purely — `executeHTTP` failing up front when the `url` setting
is absent — is kept in the model so that claims about it can be settled. -/

/-- An observable event of one connector's retry sequence:
either a sleep of `RetryDelay` seconds or a dispatch attempt. -/
inductive ExecEvent where
  | sleep (seconds : Int)
  | attempt (i : Nat)
deriving DecidableEq

/-- Outcome of the `switch connector.Type` body in `executeConnector`
for a single attempt. -/
inductive AttemptOutcome where
  | success
  | failure (msg : String)
  | unknownType
deriving DecidableEq

/-- One iteration of the `switch connector.Type` in Go `executeConnector`:
script/executable dispatches go to the oracle; an HTTP dispatch first fails
purely when the `url` setting is missing (`executeHTTP`'s first check) and
otherwise goes to the oracle; any other type hits the `default` branch. -/
def attemptOutcome (dispatch : Nat → Option String) (c : ConnectorConfig)
    (i : Nat) : AttemptOutcome :=
  if c.type = "script" ∨ c.type = "executable" then
    match dispatch i with
    | none => .success
    | some e => .failure e
  else if c.type = "http" then
    match getSetting c.settings "url" with
    | none => .failure "HTTP connector missing 'url' setting"
    | some _ =>
      match dispatch i with
      | none => .success
      | some e => .failure e
  else .unknownType

/-- Rendering of the wrapped `lastErr` in Go
`fmt.Errorf("... attempts: %w", lastErr)`; a nil error renders as
`%!w(<nil>)` (only reachable when `RetryCount < 0`). -/
def renderLastErr : Option String → String
  | some e => e
  | none => "%!w(<nil>)"

/-- The retries-exhausted error message of Go `executeConnector`:
`connector <name> failed after <RetryCount+1> attempts: <lastErr>`. -/
def failAfterMsg (c : ConnectorConfig) (lastErr : Option String) : String :=
  "connector " ++ c.name ++ " failed after " ++ toString (c.retryCount + 1) ++
    " attempts: " ++ renderLastErr lastErr

/-- The retry loop of Go `executeConnector`
(`for attempt := 0; attempt <= connector.RetryCount; attempt++`),
with `i` the current attempt index, `fuel` the number of loop iterations
still allowed (`RetryCount + 1 - i`), and `lastErr` the last failure.
It returns the trace of sleeps and dispatch attempts together with the
final result.  A sleep of `RetryDelay` seconds precedes every iteration
except the first; the `default` branch of the type switch returns
immediately without dispatching. -/
def execLoop (dispatch : Nat → Option String) (c : ConnectorConfig) :
    Nat → Nat → Option String → List ExecEvent × Except String Unit
  | _, 0, lastErr => ([], .error (failAfterMsg c lastErr))
  | i, fuel + 1, _ =>
    let pre : List ExecEvent := if 0 < i then [.sleep c.retryDelay] else []
    match attemptOutcome dispatch c i with
    | .unknownType => (pre, .error ("unknown connector type: " ++ c.type))
    | .success => (pre ++ [.attempt i], .ok ())
    | .failure e =>
      let rest := execLoop dispatch c (i + 1) fuel (some e)
      (pre ++ .attempt i :: rest.1, rest.2)

/-- Go `Manager.executeConnector` with its event trace: run the retry loop
from attempt 0 with `RetryCount + 1` iterations allowed. -/
def executeConnectorRun (dispatch : Nat → Option String) (c : ConnectorConfig) :
    List ExecEvent × Except String Unit :=
  execLoop dispatch c 0 (c.retryCount + 1).toNat none

/-- Go `Manager.executeConnector`: result only (trace discarded). -/
def executeConnector (dispatch : Nat → Option String) (c : ConnectorConfig) :
    Except String Unit :=
  (executeConnectorRun dispatch c).2

/-- Whether an event is a sleep. -/
def isSleepEvent : ExecEvent → Bool
  | .sleep _ => true
  | .attempt _ => false

/-- Whether an event is a dispatch attempt. -/
def isAttemptEvent : ExecEvent → Bool
  | .sleep _ => false
  | .attempt _ => true

/-- The trace produced by a connector whose every attempt fails:
starting at attempt `i`, `n` further iterations each sleep (except when
`i = 0` on the very first) and then dispatch. -/
def failTrace (d : Int) : Nat → Nat → List ExecEvent
  | _, 0 => []
  | i, n + 1 =>
    (if 0 < i then [ExecEvent.sleep d] else []) ++
      ExecEvent.attempt i :: failTrace d (i + 1) n

/-! ## ExecuteAll

Go `Manager.ExecuteAll` launches one goroutine per enabled connector and
collects the failures from a channel, so the order in which failures are
collected is a scheduler-dependent permutation of the enabled-connector
list.  `executeAllFrom` takes that collection order (`pairs`, a list of
(index, connector) pairs) as an explicit parameter; `executeAll` is the
deterministic linearisation that collects in configuration order.  The
oracle `dispatches` gives each enabled connector (by its position in the
enabled list) its own per-attempt dispatch oracle. -/

/-- Go `strings.Join`. -/
def joinSep (sep : String) : List String → String
  | [] => ""
  | [s] => s
  | s :: t :: rest => s ++ sep ++ joinSep sep (t :: rest)

/-- The per-connector failure entry pushed on ExecuteAll's error channel:
`fmt.Errorf("connector %s failed: %w", conn.Name, err)`. -/
def failureEntry (c : ConnectorConfig) (e : String) : String :=
  "connector " ++ c.name ++ " failed: " ++ e

/-- The failure entries collected from the error channel, in the given
collection order: one entry for every connector whose full retry sequence
failed, none for a connector that succeeded. -/
def collectErrors (dispatches : Nat → Nat → Option String)
    (pairs : List (Nat × ConnectorConfig)) : List String :=
  pairs.filterMap fun p =>
    match executeConnector (dispatches p.1) p.2 with
    | .ok _ => none
    | .error e => some (failureEntry p.2 e)

/-- The enabled connectors paired with their position in the enabled list
(the launch order of the goroutines). -/
def enabledEnum (cfg : Config) : List (Nat × ConnectorConfig) :=
  (getEnabledConnectors cfg).enum

/-- Go `Manager.ExecuteAll`, parameterised by the failure-collection order
`pairs` (a permutation of `enabledEnum cfg` chosen by the scheduler): fail
with `no enabled connectors found` when no connector is enabled, otherwise
run every enabled connector's retry sequence and either succeed or
aggregate all failure entries into one error. -/
def executeAllFrom (dispatches : Nat → Nat → Option String) (cfg : Config)
    (pairs : List (Nat × ConnectorConfig)) : Except String Unit :=
  if (getEnabledConnectors cfg).isEmpty then
    .error "no enabled connectors found"
  else
    match collectErrors dispatches pairs with
    | [] => .ok ()
    | e :: rest => .error ("connector failures: " ++ joinSep "; " (e :: rest))

/-- Go `Manager.ExecuteAll` under the configuration-order linearisation. -/
def executeAll (dispatches : Nat → Nat → Option String) (cfg : Config) :
    Except String Unit :=
  executeAllFrom dispatches cfg (enabledEnum cfg)

/-! ## TestConnector -/

/-- Result of a `TestConnector` call: the execution result together with the
configuration as it stands after the call. -/
structure TestOutcome where
  result : Except String Unit
  config : Config

/-- Go `Manager.TestConnector`: look the connector up by name (receiving a
copy, since Go `GetConnectorByName` returns a pointer to the range loop's
copy), substitute canned sample data when none is given (the notification
data is absorbed into the dispatch oracle here), set `Enabled = true` on
the copy, run the retry sequence, and restore the copy's flag on return.
Because only the copy is ever written, the owning `Config` is returned
unchanged on every path. -/
def testConnector (dispatch : Nat → Option String) (cfg : Config)
    (name : String) : TestOutcome :=
  match getConnectorByName cfg name with
  | none => ⟨.error ("connector " ++ name ++ " not found"), cfg⟩
  | some c => ⟨executeConnector dispatch { c with enabled := true }, cfg⟩

/-! ## Validation -/

/-- Go `validateConnector(config, i, connector)` (the `config` argument is
unused in the source).  Returns the validation error, if any. -/
def validateConnector (i : Nat) (c : ConnectorConfig) : Option String :=
  if c.name = "" then
    some ("connector[" ++ toString i ++ "]: name cannot be empty")
  else if c.type = "" then
    some ("connector[" ++ toString i ++ "] (" ++ c.name ++ "): type cannot be empty")
  else if ¬ (["script", "executable", "http"].contains c.type) then
    some ("connector[" ++ toString i ++ "] (" ++ c.name ++ "): invalid type '" ++
      c.type ++ "', must be 'script', 'executable', or 'http'")
  else if c.type ≠ "http" ∧ c.path = "" then
    some ("connector[" ++ toString i ++ "] (" ++ c.name ++
      "): path cannot be empty for type '" ++ c.type ++ "'")
  else if c.type = "http" ∧ getSetting c.settings "url" = none then
    some ("connector[" ++ toString i ++ "] (" ++ c.name ++
      "): HTTP connector must have 'url' setting")
  else none

/-- The per-connector default-filling done by Go `ValidateConfig` after a
connector passes validation. -/
def normalizeConnector (globalTimeout : Int) (c : ConnectorConfig) :
    ConnectorConfig :=
  { c with
    timeout := if c.timeout ≤ 0 then globalTimeout else c.timeout
    retryCount := if c.retryCount < 0 then 0 else c.retryCount
    retryDelay := if c.retryDelay ≤ 0 then 5 else c.retryDelay }

/-- Go `validateGeoIPConfig`: unknown service names fall back to `ipapi`,
non-positive TTLs fall back to 3600. -/
def validateGeoIPConfig (g : GeoIPConfig) : GeoIPConfig :=
  let g' := if g.service ≠ "ipapi" ∧ g.service ≠ "ipgeolocation" then
    { g with service := "ipapi" } else g
  if g'.ttl ≤ 0 then { g' with ttl := 3600 } else g'

/-- The `for i, connector := range config.Connectors` loop of
Go `ValidateConfig`: stop at the first connector that fails validation,
otherwise fill in per-connector defaults. -/
def validateConnectorsLoop (globalTimeout : Int) :
    Nat → List ConnectorConfig → Except String (List ConnectorConfig)
  | _, [] => .ok []
  | i, c :: rest =>
    match validateConnector i c with
    | some e => .error e
    | none =>
      match validateConnectorsLoop globalTimeout (i + 1) rest with
      | .error e => .error e
      | .ok rest' => .ok (normalizeConnector globalTimeout c :: rest')

/-- Go `ValidateConfig`: reject an empty connector path, default the global
timeout, validate each connector in order (filling defaults), then
normalise the GeoIP sub-configuration.  On success the updated
configuration is returned (the Go function mutates it in place). -/
def validateConfig (cfg : Config) : Except String Config :=
  if cfg.connectorPath = "" then .error "connector_path cannot be empty"
  else
    let gt := if cfg.timeout ≤ 0 then 30 else cfg.timeout
    match validateConnectorsLoop gt 0 cfg.connectors with
    | .error e => .error e
    | .ok conns =>
      .ok { cfg with
        timeout := gt
        connectors := conns
        geoip := validateGeoIPConfig cfg.geoip }

/-! ## Connector discovery -/

/-- One directory entry as observed by Go `DiscoverConnectors` through
`os.ReadDir`: its name, whether it is a directory, its permission bits,
and whether `entry.Info()` fails. -/
structure DirEntry where
  name : String
  isDir : Bool
  mode : Nat
  infoErr : Bool
deriving DecidableEq

/-- Go `filepath.Ext` on a path without separators: the suffix starting at
the final dot, or the empty string when there is no dot. -/
def extData : List Char → List Char
  | [] => []
  | c :: rest =>
    let e := extData rest
    if e = [] then (if c = '.' then c :: rest else []) else e

/-- Go `strings.TrimSuffix(name, filepath.Ext(name))`. -/
def trimExt (s : String) : String :=
  ⟨s.data.take (s.data.length - (extData s.data).length)⟩

/-- Go `strings.HasSuffix`, as a structural check on character lists. -/
def strEndsWith (s suffix : String) : Bool :=
  List.isSuffixOf suffix.data s.data

/-- Go `filepath.IsAbs` (on Unix): the path starts with a separator. -/
def isAbsPath (s : String) : Bool :=
  match s.data with
  | '/' :: _ => true
  | _ => false

/-- Whether a discovered file gets Type `script` (a known interpreter
suffix) rather than `executable`. -/
def hasScriptExt (name : String) : Bool :=
  strEndsWith name ".sh" || strEndsWith name ".bash" || strEndsWith name ".py" ||
    strEndsWith name ".js" || strEndsWith name ".rb" || strEndsWith name ".pl"

/-- The body of the `for _, entry := range entries` loop of
Go `DiscoverConnectors`: skip directories, entries whose `Info()` fails,
files with no executable permission bit, and non-absolute joined paths
(`filepath.Join`/`Clean` is modelled as plain separator join, which agrees
with Go on the clean directory paths used here); otherwise propose a
disabled connector with default timeout and retry policy. -/
def discoverEntry (connectorPath : String) (e : DirEntry) :
    Option ConnectorConfig :=
  if e.isDir then none
  else if e.infoErr then none
  else if Nat.land e.mode 0o111 = 0 then none
  else
    let path := connectorPath ++ "/" ++ e.name
    let ctype := if hasScriptExt e.name then "script" else "executable"
    if ¬ isAbsPath path then none
    else some
      { name := trimExt e.name
        type := ctype
        enabled := false
        path := path
        settings := []
        timeout := 30
        retryCount := 2
        retryDelay := 5
        description := "Auto-discovered " ++ ctype ++ " connector" }

/-- Go `Manager.DiscoverConnectors`, with the filesystem supplied as data:
`dirExists` is the `os.Stat` check on the connector directory, `readDirError`
a possible `os.ReadDir` failure, `entries` the directory listing.  A missing
directory yields an empty proposal list and no error; the live `Config` is
never touched (the function only reads `ConnectorPath`). -/
def discoverConnectors (connectorPath : String) (dirExists : Bool)
    (readDirError : Option String) (entries : List DirEntry) :
    Except String (List ConnectorConfig) :=
  if ¬ dirExists then .ok []
  else
    match readDirError with
    | some e => .error ("failed to read connector directory: " ++ e)
    | none => .ok (entries.filterMap (discoverEntry connectorPath))

/-! ## IP addresses

Model of the Go standard library's `net.ParseIP` as used by
`internal/geoip/geoip.go`.  A parsed address is either an IPv4 address
(anything whose 16-byte form satisfies `To4() != nil`, i.e. dotted-quad
input or a v4-mapped IPv6 input) or a full 16-byte IPv6 address. -/

/-- A parsed IP address.  `v4` corresponds to a Go `net.IP` with
`To4() != nil`; `v6` carries the 16 bytes of an IPv6 address. -/
inductive IPAddr where
  | v4 (a b c d : Nat)
  | v6 (bytes : List Nat)
deriving DecidableEq

/-- Splitting a character list on a separator (the semantics of Go
`strings.Split` / Lean `String.split`, written as structural recursion):
the empty input yields one empty field, and every separator opens a new
field. -/
def splitOnChar (sep : Char) : List Char → List (List Char)
  | [] => [[]]
  | c :: rest =>
    let r := splitOnChar sep rest
    if c = sep then [] :: r
    else
      match r with
      | [] => [[c]]
      | g :: gs => (c :: g) :: gs

/-- One dotted-decimal IPv4 field: non-empty, all digits, no leading zero
(Go rejects leading zeros since 1.17), value at most 255. -/
def parseV4Field (cs : List Char) : Option Nat :=
  if cs = [] then none
  else if ¬ cs.all (fun ch => ch.isDigit) then none
  else if 1 < cs.length ∧ cs.head? = some '0' then none
  else
    let n := cs.foldl (fun acc ch => acc * 10 + (ch.toNat - 48)) 0
    if n ≤ 255 then some n else none

/-- Go `parseIPv4` on the character list: exactly four dot-separated
fields. -/
def parseIPv4Data (cs : List Char) : Option IPAddr :=
  match (splitOnChar '.' cs).mapM parseV4Field with
  | some [a, b, c, d] => some (.v4 a b c d)
  | _ => none

/-- Go `parseIPv4`. -/
def parseIPv4 (s : String) : Option IPAddr :=
  parseIPv4Data s.data

/-- Value of a hexadecimal digit. -/
def hexDigitVal (c : Char) : Option Nat :=
  if '0' ≤ c ∧ c ≤ '9' then some (c.toNat - 48)
  else if 'a' ≤ c ∧ c ≤ 'f' then some (c.toNat - 87)
  else if 'A' ≤ c ∧ c ≤ 'F' then some (c.toNat - 55)
  else none

/-- Go `xtoi` as used by `parseIPv6`: read a non-empty maximal run of hex
digits; fail when no digit is read or the value exceeds a 16-bit group. -/
def takeHexGroup : List Char → Nat → Nat → Option (Nat × List Char)
  | [], n, cnt => if cnt = 0 then none else some (n, [])
  | ch :: rest, n, cnt =>
    match hexDigitVal ch with
    | some v =>
      let n' := n * 16 + v
      if 0xFFFF < n' then none else takeHexGroup rest n' (cnt + 1)
    | none => if cnt = 0 then none else some (n, ch :: rest)

/-- The main loop of Go `parseIPv6`: `s` is the remaining input, `acc` the
bytes produced so far, `ell` the byte position of the `::` ellipsis if one
was seen.  Returns the bytes and ellipsis position on a successful exit.
The fuel bounds the iteration count (each iteration consumes input, so 20
is plenty for any input that can succeed). -/
def parseIPv6Loop : Nat → List Char → List Nat → Option Nat →
    Option (List Nat × Option Nat)
  | 0, _, _, _ => none
  | fuel + 1, s, acc, ell =>
    if 16 ≤ acc.length then
      if s = [] then some (acc, ell) else none
    else
      match takeHexGroup s 0 0 with
      | none => none
      | some (n, rest) =>
        match rest with
        | '.' :: _ =>
          if ell = none ∧ acc.length ≠ 12 then none
          else if 16 < acc.length + 4 then none
          else
            match parseIPv4Data s with
            | some (.v4 a b c d) => some (acc ++ [a, b, c, d], ell)
            | _ => none
        | [] => some (acc ++ [n / 256, n % 256], ell)
        | ':' :: s2 =>
          let acc' := acc ++ [n / 256, n % 256]
          match s2 with
          | [] => none
          | ':' :: s3 =>
            if ell.isSome then none
            else if s3 = [] then some (acc', some acc'.length)
            else parseIPv6Loop fuel s3 acc' (some acc'.length)
          | _ => parseIPv6Loop fuel s2 acc' ell
        | _ => none

/-- The post-loop fixup of Go `parseIPv6`: a full 16 bytes must not also
have an ellipsis; fewer than 16 bytes require an ellipsis, at whose
position the missing zero bytes are inserted. -/
def finishV6 : Option (List Nat × Option Nat) → Option (List Nat)
  | none => none
  | some (acc, ell) =>
    if acc.length = 16 then
      match ell with
      | none => some acc
      | some _ => none
    else
      match ell with
      | none => none
      | some e => some (acc.take e ++ List.replicate (16 - acc.length) 0 ++ acc.drop e)

/-- Go `parseIPv6` on the character list: handle a leading `::` (possibly
the whole input), then run the main loop and the post-loop fixup. -/
def parseIPv6Core (cs : List Char) : Option (List Nat) :=
  match cs with
  | ':' :: ':' :: rest =>
    if rest = [] then some (List.replicate 16 0)
    else finishV6 (parseIPv6Loop 20 rest [] (some 0))
  | _ => finishV6 (parseIPv6Loop 20 cs [] none)

/-- Go `net.IP.To4` on 16 bytes: a v4-mapped address collapses to its four
trailing bytes, anything else stays a 16-byte IPv6 address. -/
def bytesToIPAddr (bs : List Nat) : IPAddr :=
  match bs with
  | [0, 0, 0, 0, 0, 0, 0, 0, 0, 0, 255, 255, a, b, c, d] => .v4 a b c d
  | _ => .v6 bs

/-- The dispatch loop of Go `net.ParseIP`: the first `.` or `:` in the
string decides between the IPv4 and IPv6 parsers; `some true` means a dot
came first. -/
def classifyIP : List Char → Option Bool
  | [] => none
  | c :: rest =>
    if c = '.' then some true
    else if c = ':' then some false
    else classifyIP rest

/-- Go `net.ParseIP`. -/
def parseIP (s : String) : Option IPAddr :=
  match classifyIP s.data with
  | some true => parseIPv4 s
  | some false => (parseIPv6Core s.data).map bytesToIPAddr
  | none => none

/-! ## Private-range classification (`isPrivateIP`) -/

/-- A parsed IPv4 CIDR (network bytes plus prefix length), as produced by
`net.ParseCIDR` for the literals in `isPrivateIP`. -/
structure CIDR4 where
  a : Nat
  b : Nat
  c : Nat
  d : Nat
  ones : Nat
deriving DecidableEq

/-- The private/loopback/link-local IPv4 ranges listed in Go
`isPrivateIP`, in source order. -/
def privateCIDRs : List CIDR4 :=
  [⟨127, 0, 0, 0, 8⟩, ⟨10, 0, 0, 0, 8⟩, ⟨172, 16, 0, 0, 12⟩,
   ⟨192, 168, 0, 0, 16⟩, ⟨169, 254, 0, 0, 16⟩]

/-- Byte `idx` of the Go `net.CIDRMask(ones, 32)` mask. -/
def maskByte (ones idx : Nat) : Nat :=
  if 8 * (idx + 1) ≤ ones then 255
  else if ones ≤ 8 * idx then 0
  else 256 - 2 ^ (8 - (ones - 8 * idx))

/-- Go `(*IPNet).Contains` for a 4-byte network against a `To4`-convertible
address: every address byte masked by the network mask equals the network
byte. -/
def cidrContains (n : CIDR4) (a b c d : Nat) : Bool :=
  Nat.land a (maskByte n.ones 0) == n.a &&
  Nat.land b (maskByte n.ones 1) == n.b &&
  Nat.land c (maskByte n.ones 2) == n.c &&
  Nat.land d (maskByte n.ones 3) == n.d

/-- The 16 bytes of the IPv6 loopback address `::1`. -/
def v6LoopbackBytes : List Nat := List.replicate 15 0 ++ [1]

/-- The body of Go `isPrivateIP` on a parsed address: IPv4 addresses are
checked against the five private CIDRs (a 4-byte network never contains a
16-byte IPv6 address); IPv6 addresses (`To4() == nil`) are private when
loopback, link-local unicast (`ip[0] == 0xfe && ip[1]&0xc0 == 0x80`) or
unique local (`ip[0]&0xfe == 0xfc`). -/
def isPrivateAddr : IPAddr → Bool
  | .v4 a b c d => privateCIDRs.any (fun n => cidrContains n a b c d)
  | .v6 bs =>
    (bs == v6LoopbackBytes) ||
    (match bs with
     | b0 :: b1 :: _ =>
       (b0 == 254 && Nat.land b1 192 == 128) || (Nat.land b0 254 == 252)
     | _ => false)

/-- Go `isPrivateIP`: parse the string (unparseable strings are not
private) and classify. -/
def isPrivateIP (s : String) : Bool :=
  match parseIP s with
  | none => false
  | some a => isPrivateAddr a

/-! ## GeoIP lookup manager -/

/-- Geolocation information, mirroring Go `geoip.Info`. -/
structure Info where
  ip : String
  country : String
  region : String
  city : String
  isp : String
  timezone : String
  lat : Float
  lon : Float

/-- Go `&Info{IP: ip}`: only the IP field populated. -/
def emptyInfo (ip : String) : Info :=
  { ip := ip, country := "", region := "", city := "", isp := ""
    timezone := "", lat := 0.0, lon := 0.0 }

/-- The synthetic `Info` returned by `Lookup` for a private address. -/
def privateInfo (ip : String) : Info :=
  { ip := ip, country := "Private Network", region := "Local"
    city := "Internal", isp := "Private", timezone := "", lat := 0.0, lon := 0.0 }

/-- The GeoIP cache (a Go `map[string]*cacheEntry`), modelled as an
association list from IP string to (timestamp, info); timestamps are in
seconds. -/
def GeoCache : Type := List (String × (Int × Info))

/-- Map read (`m.cache[ip]`). -/
def cacheGet : GeoCache → String → Option (Int × Info)
  | [], _ => none
  | (k, e) :: rest, ip => if k = ip then some e else cacheGet rest ip

/-- Map write (`m.cache[ip] = &cacheEntry{info, time.Now()}`): overwrite an
existing binding, otherwise append. -/
def cacheSet : GeoCache → String → Int × Info → GeoCache
  | [], ip, e => [(ip, e)]
  | (k, e0) :: rest, ip, e =>
    if k = ip then (k, e) :: rest else (k, e0) :: cacheSet rest ip e

/-- Go `Manager.getCached` at time `now`: a hit requires an entry whose age
`now - timestamp` is at most the configured TTL (in seconds); a stale entry
reads as a miss but is not removed. -/
def getCached (cfg : GeoIPConfig) (cache : GeoCache) (now : Int)
    (ip : String) : Option Info :=
  match cacheGet cache ip with
  | none => none
  | some (ts, info) => if cfg.ttl < now - ts then none else some info

/-- Whether `m.services` contains the named service: `NewManager` always
registers `ipapi` and registers `ipgeolocation` only when an API key is
configured. -/
def hasService (cfg : GeoIPConfig) (name : String) : Bool :=
  name == "ipapi" || (name == "ipgeolocation" && cfg.apiKey != "")

/-- Observable outcome of one Go `Manager.Lookup` call: the returned value
or error, the cache afterwards, whether the backend service was invoked,
and whether the cache was consulted. -/
structure LookupOut where
  result : Except String Info
  cache : GeoCache
  backendCalled : Bool
  cacheChecked : Bool

/-- Go `Manager.Lookup` at time `now`, with the backend service's
behaviour supplied as the oracle `backend` (the result of
`service.Lookup(ip)`).  The steps, in source order: disabled GeoIP returns
an IP-only `Info`; an unparseable IP is an error; a private address returns
the synthetic private `Info` without touching cache or backend; a fresh
cache hit is returned directly; an unregistered service name is an error;
otherwise the backend is invoked — its failure degrades to an IP-only
`Info` with no error, its success is returned and cached (when caching is
enabled). -/
def lookup (cfg : GeoIPConfig) (backend : String → Except String Info)
    (cache : GeoCache) (now : Int) (ip : String) : LookupOut :=
  if ¬ cfg.enabled then ⟨.ok (emptyInfo ip), cache, false, false⟩
  else
    match parseIP ip with
    | none => ⟨.error ("invalid IP address: " ++ ip), cache, false, false⟩
    | some _ =>
      if isPrivateIP ip then ⟨.ok (privateInfo ip), cache, false, false⟩
      else
        match (if cfg.cache then getCached cfg cache now ip else none) with
        | some info => ⟨.ok info, cache, false, cfg.cache⟩
        | none =>
          if ¬ hasService cfg cfg.service then
            ⟨.error ("unknown GeoIP service: " ++ cfg.service), cache, false, cfg.cache⟩
          else
            match backend ip with
            | .error _ => ⟨.ok (emptyInfo ip), cache, true, cfg.cache⟩
            | .ok info =>
              ⟨.ok info,
               if cfg.cache then cacheSet cache ip (now, info) else cache,
               true, cfg.cache⟩

/-! ## Specification-level predicates and concrete fixtures -/

/-- The string `needle` occurs as a contiguous substring of `hay`. -/
def strOccurs (needle hay : String) : Prop :=
  needle.data <:+: hay.data

/-- Connector at position `p.1` of the enabled list succeeds (its full
retry sequence ends in success). -/
def connOk (dispatches : Nat → Nat → Option String)
    (p : Nat × ConnectorConfig) : Prop :=
  executeConnector (dispatches p.1) p.2 = .ok ()

/-- The aggregate-execution contract of `ExecuteAll` (claim C1), for a
failure-collection order `pairs`: with no enabled connector it fails with
the no-connectors error; otherwise it succeeds iff every enabled
connector's retry sequence succeeds; on failure it returns the aggregate
message, which contains the name of every failing connector; and every
collected failure entry is the tagged entry of some failing enabled
connector (so no entry reports a connector that succeeded). -/
def ExecuteAllSpec (dispatches : Nat → Nat → Option String) (cfg : Config)
    (pairs : List (Nat × ConnectorConfig)) : Prop :=
  (getEnabledConnectors cfg = [] →
    executeAllFrom dispatches cfg pairs = .error "no enabled connectors found") ∧
  (getEnabledConnectors cfg ≠ [] →
    (executeAllFrom dispatches cfg pairs = .ok () ↔
      ∀ p ∈ enabledEnum cfg, connOk dispatches p)) ∧
  (getEnabledConnectors cfg ≠ [] →
    ∀ p ∈ enabledEnum cfg, ∀ e,
      executeConnector (dispatches p.1) p.2 = .error e →
      executeAllFrom dispatches cfg pairs =
        .error ("connector failures: " ++
          joinSep "; " (collectErrors dispatches pairs)) ∧
      strOccurs p.2.name ("connector failures: " ++
        joinSep "; " (collectErrors dispatches pairs))) ∧
  (∀ s ∈ collectErrors dispatches pairs, ∃ p ∈ enabledEnum cfg, ∃ e,
    executeConnector (dispatches p.1) p.2 = .error e ∧ s = failureEntry p.2 e)

/-- Individual connector validity, as `validateConnector` checks it:
non-empty name, one of the three connector types, a non-empty path for
non-HTTP types, and a `url` setting for the HTTP type. -/
def connectorValid (c : ConnectorConfig) : Prop :=
  c.name ≠ "" ∧
  (c.type = "script" ∨ c.type = "executable" ∨ c.type = "http") ∧
  (c.type ≠ "http" → c.path ≠ "") ∧
  (c.type = "http" → getSetting c.settings "url" ≠ none)

/-- The private, loopback and link-local ranges enumerated by the
specification: IPv4 RFC1918 (10/8, 172.16/12, 192.168/16), 127/8 and
169.254/16, and IPv6 loopback, link-local (fe80::/10) and unique-local
(fc00::/7); bytes of an address are below 256. -/
def inSpecPrivateRange : IPAddr → Prop
  | .v4 a b c d =>
      a < 256 ∧ b < 256 ∧ c < 256 ∧ d < 256 ∧
      (a = 10 ∨ (a = 172 ∧ 16 ≤ b ∧ b ≤ 31) ∨ (a = 192 ∧ b = 168) ∨
        a = 127 ∨ (a = 169 ∧ b = 254))
  | .v6 bs =>
      bs = v6LoopbackBytes ∨
      (∃ b0 b1 rest, bs = b0 :: b1 :: rest ∧ b0 < 256 ∧ b1 < 256 ∧
        ((b0 = 254 ∧ 128 ≤ b1 ∧ b1 ≤ 191) ∨ (252 ≤ b0 ∧ b0 ≤ 253)))

/-- Fixture: an always-enabled script connector whose dispatch fails. -/
def connA : ConnectorConfig :=
  ⟨"slack", "script", true, "/etc/fail2ban/connectors/slack.sh", [], 30, 1, 5, ""⟩

/-- Fixture: an enabled HTTP connector with a `url` setting. -/
def connB : ConnectorConfig :=
  ⟨"teams", "http", true, "", [("url", "https://example.com/webhook")], 30, 0, 5, ""⟩

/-- Fixture: a disabled connector. -/
def connC : ConnectorConfig :=
  ⟨"email", "script", false, "/etc/fail2ban/connectors/email.py", [], 60, 3, 10, ""⟩

/-- Fixture: a configuration with two enabled connectors and one disabled
one. -/
def cfgW : Config :=
  ⟨[connA, connB, connC], "/etc/fail2ban/connectors",
   ⟨true, "", "ipapi", true, 3600⟩, false, "info", 30⟩

/-- Fixture: a failure-collection order in which the second enabled
connector finished first. -/
def pairsW : List (Nat × ConnectorConfig) := [(1, connB), (0, connA)]

/-- Fixture: dispatch outcomes under which enabled connector 0 always
fails and every other connector succeeds. -/
def dispatchesW : Nat → Nat → Option String :=
  fun j _ => if j = 0 then some "execution failed: exit status 1" else none

/-- Fixture: a dispatch oracle that fails on every attempt. -/
def dispatchFailW : Nat → Option String :=
  fun _ => some "execution failed: exit status 1"

/-- Fixture: an HTTP connector without a `url` setting. -/
def connNoUrl : ConnectorConfig :=
  ⟨"webhook", "http", true, "", [("header_Authorization", "Bearer t")], 30, 2, 5, ""⟩

/-- Fixture: a connector configuration that is valid except that the same
name appears twice. -/
def dupConnector : ConnectorConfig :=
  ⟨"discord", "script", true, "/etc/fail2ban/connectors/discord.sh", [], 30, 2, 5, ""⟩

/-- Fixture: a configuration holding two connectors with the same name;
the configuration is already in normal form, so validation returns it
unchanged. -/
def dupConfig : Config :=
  ⟨[dupConnector, dupConnector], "/etc/fail2ban/connectors",
   ⟨true, "", "ipapi", true, 3600⟩, false, "info", 30⟩

/-- Fixture: an enabled GeoIP configuration with caching and the default
service. -/
def geoCfgW : GeoIPConfig := ⟨true, "", "ipapi", true, 3600⟩

/-- Fixture: a disabled GeoIP configuration. -/
def geoCfgOffW : GeoIPConfig := ⟨false, "", "ipapi", true, 3600⟩

/-- Fixture: a geolocation result for a public IP. -/
def infoW : Info :=
  ⟨"8.8.8.8", "United States", "California", "Mountain View", "Google LLC",
   "America/Los_Angeles", 37.4, -122.0⟩

/-- Fixture: a backend service whose lookups succeed with `infoW`. -/
def backendOkW : String → Except String Info := fun _ => .ok infoW

/-- Fixture: a backend service whose lookups fail. -/
def backendFailW : String → Except String Info :=
  fun _ => .error "HTTP request failed: connection refused"

/-- Fixture: a configuration whose only connector is disabled. -/
def cfgT : Config :=
  ⟨[connC], "/etc/fail2ban/connectors", ⟨true, "", "ipapi", true, 3600⟩,
   false, "info", 30⟩

/-- Fixture: an executable shell script directory entry. -/
def fooEntry : DirEntry := ⟨"foo.sh", false, 0o755, false⟩

/-- Fixture: a non-executable text file directory entry. -/
def barEntry : DirEntry := ⟨"bar.txt", false, 0o644, false⟩

/-! ## Theorems -/

/-- C10: when GeoIP is disabled, `Lookup` returns an IP-only `GeoInfo` and
no error for every input string (malformed ones included), touching
neither cache nor backend, because the disabled check precedes IP
validation; consequently an error result (in particular the invalid-IP
error) can only arise when GeoIP is enabled. -/
theorem lookup_disabled_returns_ip_only :
    (∀ (cfg : GeoIPConfig) (backend : String → Except String Info)
        (cache : GeoCache) (now : Int) (ip : String),
      cfg.enabled = false →
        lookup cfg backend cache now ip =
          ⟨.ok (emptyInfo ip), cache, false, false⟩) ∧
    (∀ (cfg : GeoIPConfig) (backend : String → Except String Info)
        (cache : GeoCache) (now : Int) (ip : String) (e : String),
      (lookup cfg backend cache now ip).result = .error e →
        cfg.enabled = true) := by
  constructor
  · intro cfg backend cache now ip h
    simp [lookup, h]
  · intro cfg backend cache now ip e h
    cases hb : cfg.enabled with
    | true => rfl
    | false => simp [lookup, hb] at h

/-- Witness for C10 at a malformed input string. -/
theorem lookup_disabled_returns_ip_only_witness :
    lookup geoCfgOffW backendFailW [] 0 "not-an-ip" =
      ⟨.ok (emptyInfo "not-an-ip"), [], false, false⟩ :=
  lookup_disabled_returns_ip_only.1 geoCfgOffW backendFailW [] 0 "not-an-ip" rfl

/-- C4: with GeoIP enabled, a syntactically malformed IP string makes
`Lookup` fail with the invalid-IP error; a well-formed public IP whose
backend lookup fails makes `Lookup` return a `GeoInfo` with only the IP
field populated and no error — the backend error is never propagated. -/
theorem lookup_invalid_and_backend_failure :
    (∀ (cfg : GeoIPConfig) (backend : String → Except String Info)
        (cache : GeoCache) (now : Int) (ip : String),
      cfg.enabled = true → parseIP ip = none →
        lookup cfg backend cache now ip =
          ⟨.error ("invalid IP address: " ++ ip), cache, false, false⟩) ∧
    (∀ (cfg : GeoIPConfig) (backend : String → Except String Info)
        (cache : GeoCache) (now : Int) (ip : String) (a : IPAddr) (e : String),
      cfg.enabled = true → parseIP ip = some a → isPrivateAddr a = false →
      (cfg.cache = false ∨ getCached cfg cache now ip = none) →
      hasService cfg cfg.service = true → backend ip = .error e →
        lookup cfg backend cache now ip =
          ⟨.ok (emptyInfo ip), cache, true, cfg.cache⟩) := by
  constructor
  · intro cfg backend cache now ip hen hp
    simp [lookup, hen, hp]
  · intro cfg backend cache now ip a e hen hp hpriv hmiss hsvc hbk
    have hpriv' : isPrivateIP ip = false := by
      simp [isPrivateIP, hp, hpriv]
    have hcachebranch :
        (if cfg.cache then getCached cfg cache now ip else none) = none := by
      rcases hmiss with h | h
      · simp [h]
      · cases cfg.cache <;> simp [h]
    simp [lookup, hen, hp, hpriv', hcachebranch, hsvc, hbk]

/-- Witness for C4: a malformed string errors; a public IP with a failing
backend degrades to an IP-only result. -/
theorem lookup_invalid_and_backend_failure_witness :
    lookup geoCfgW backendFailW [] 0 "999.1.2.3" =
      ⟨.error ("invalid IP address: " ++ "999.1.2.3"), [], false, false⟩ ∧
    lookup geoCfgW backendFailW [] 0 "8.8.8.8" =
      ⟨.ok (emptyInfo "8.8.8.8"), [], true, geoCfgW.cache⟩ :=
  ⟨lookup_invalid_and_backend_failure.1 geoCfgW backendFailW [] 0 "999.1.2.3"
      rfl (by decide),
   lookup_invalid_and_backend_failure.2 geoCfgW backendFailW [] 0 "8.8.8.8"
      (.v4 8 8 8 8) "HTTP request failed: connection refused"
      rfl (by decide) (by decide) (Or.inr rfl) rfl rfl⟩

/-- Helper: masking a byte with 255 is the identity. -/
theorem land255_of_lt (x : Nat) (h : x < 256) : Nat.land x 255 = x := by
  have h8 : x < 2 ^ 8 := by omega
  have hm := Nat.and_pow_two_sub_one_of_lt_two_pow h8
  norm_num at hm
  exact hm

/-- Helper: masking with 240 yields 16 on the byte range 16-31. -/
theorem land240_eq_16 (x : Nat) (h1 : 16 ≤ x) (h2 : x ≤ 31) :
    Nat.land x 240 = 16 := by
  interval_cases x <;> decide

/-- Helper: masking with 192 yields 128 on the byte range 128-191. -/
theorem land192_eq_128 (x : Nat) (h1 : 128 ≤ x) (h2 : x ≤ 191) :
    Nat.land x 192 = 128 := by
  interval_cases x <;> decide

/-- Helper: masking with 254 yields 252 on bytes 252 and 253. -/
theorem land254_eq_252 (x : Nat) (h1 : 252 ≤ x) (h2 : x ≤ 253) :
    Nat.land x 254 = 252 := by
  interval_cases x <;> decide

/-- Every address in the specification's private/loopback/link-local
ranges is classified private by the source's `isPrivateIP` logic. -/
theorem inSpecPrivateRange_isPrivateAddr (a : IPAddr)
    (h : inSpecPrivateRange a) : isPrivateAddr a = true := by
  cases a with
  | v4 a b c d =>
    obtain ⟨ha, hb, hc, hd, hrange⟩ := h
    simp only [isPrivateAddr, privateCIDRs, List.any_cons, List.any_nil,
      Bool.or_eq_true, Bool.or_false]
    have hz : ∀ x : Nat, Nat.land x 0 = 0 := fun x => Nat.and_zero x
    rcases hrange with h10 | ⟨h172, hblo, hbhi⟩ | ⟨h192, h168⟩ | h127 | ⟨h169, h254⟩
    · refine Or.inr (Or.inl ?_)
      subst h10
      simp [cidrContains, maskByte, hz]
      all_goals decide
    · refine Or.inr (Or.inr (Or.inl ?_))
      subst h172
      simp [cidrContains, maskByte, hz, land240_eq_16 b hblo hbhi]
      all_goals decide
    · refine Or.inr (Or.inr (Or.inr (Or.inl ?_)))
      subst h192
      subst h168
      simp [cidrContains, maskByte, hz]
      all_goals decide
    · refine Or.inl ?_
      subst h127
      simp [cidrContains, maskByte, hz]
      all_goals decide
    · refine Or.inr (Or.inr (Or.inr (Or.inr ?_)))
      subst h169
      subst h254
      simp [cidrContains, maskByte, hz]
      all_goals decide
  | v6 bs =>
    rcases h with hloop | ⟨b0, b1, rest, hbs, hb0, hb1, hcase⟩
    · simp [isPrivateAddr, hloop]
    · subst hbs
      simp only [isPrivateAddr, Bool.or_eq_true]
      refine Or.inr ?_
      rcases hcase with ⟨h254, hlo, hhi⟩ | ⟨hlo, hhi⟩
      · exact Or.inl (by simp [h254, land192_eq_128 b1 hlo hhi])
      · exact Or.inr (by simp [land254_eq_252 b0 hlo hhi])

/-- C5: with GeoIP enabled, a lookup of any IP in a private, loopback or
link-local range returns the synthetic `Private Network` `GeoInfo` with no
error, performs no backend call, and neither consults nor modifies the
cache, regardless of cache contents, timestamps or TTL. -/
theorem lookup_private_range (cfg : GeoIPConfig)
    (backend : String → Except String Info) (cache : GeoCache) (now : Int)
    (ip : String) (a : IPAddr) (hen : cfg.enabled = true)
    (hp : parseIP ip = some a) (hr : inSpecPrivateRange a) :
    lookup cfg backend cache now ip = ⟨.ok (privateInfo ip), cache, false, false⟩ := by
  have hpriv : isPrivateIP ip = true := by
    simp [isPrivateIP, hp, inSpecPrivateRange_isPrivateAddr a hr]
  simp [lookup, hen, hp, hpriv]

/-- Witness for C5 at the RFC1918 address `192.168.1.1`, with a non-empty
cache and a live backend, neither of which is touched. -/
theorem lookup_private_range_witness :
    lookup geoCfgW backendOkW [("192.168.1.1", (0, infoW))] 5000 "192.168.1.1" =
      ⟨.ok (privateInfo "192.168.1.1"), [("192.168.1.1", (0, infoW))], false, false⟩ :=
  lookup_private_range geoCfgW backendOkW [("192.168.1.1", (0, infoW))] 5000
    "192.168.1.1" (.v4 192 168 1 1) rfl (by decide)
    (by refine ⟨by norm_num, by norm_num, by norm_num, by norm_num, ?_⟩
        exact Or.inr (Or.inr (Or.inl ⟨rfl, rfl⟩)))

/-- Helper: writing a cache entry makes it the entry read back for that
key. -/
theorem cacheGet_cacheSet_self (c : GeoCache) (ip : String) (e : Int × Info) :
    cacheGet (cacheSet c ip e) ip = some e := by
  induction c with
  | nil => simp [cacheSet, cacheGet]
  | cons kv rest ih =>
    obtain ⟨k, e0⟩ := kv
    by_cases hk : k = ip
    · simp [cacheSet, cacheGet, hk]
    · simp [cacheSet, cacheGet, hk, ih]

/-- C6: with GeoIP enabled and caching on, after a first successful lookup
of a public IP, a second lookup of the same IP within the TTL window makes
no backend call and returns the identical `GeoInfo`, leaving the cache
unchanged; a lookup after the TTL has expired treats the entry as a miss —
the backend is called again and the entry is overwritten in place (not
evicted). -/
theorem lookup_cache_hit_within_ttl (cfg : GeoIPConfig)
    (backend : String → Except String Info) (cache : GeoCache)
    (now1 now2 now3 : Int) (ip : String) (a : IPAddr) (info : Info)
    (hen : cfg.enabled = true) (hc : cfg.cache = true)
    (hp : parseIP ip = some a) (hpriv : isPrivateAddr a = false)
    (hmiss : getCached cfg cache now1 ip = none)
    (hsvc : hasService cfg cfg.service = true)
    (hbk : backend ip = .ok info)
    (hfresh : now2 - now1 ≤ cfg.ttl)
    (hstale : cfg.ttl < now3 - now1) :
    (lookup cfg backend cache now1 ip).result = .ok info ∧
    (lookup cfg backend cache now1 ip).backendCalled = true ∧
    (lookup cfg backend cache now1 ip).cache = cacheSet cache ip (now1, info) ∧
    (lookup cfg backend (lookup cfg backend cache now1 ip).cache now2 ip).result =
      (lookup cfg backend cache now1 ip).result ∧
    (lookup cfg backend (lookup cfg backend cache now1 ip).cache now2 ip).backendCalled =
      false ∧
    (lookup cfg backend (lookup cfg backend cache now1 ip).cache now2 ip).cache =
      (lookup cfg backend cache now1 ip).cache ∧
    (lookup cfg backend (lookup cfg backend cache now1 ip).cache now3 ip).backendCalled =
      true ∧
    cacheGet (lookup cfg backend (lookup cfg backend cache now1 ip).cache now3 ip).cache
      ip = some (now3, info) := by
  have hpriv' : isPrivateIP ip = false := by simp [isPrivateIP, hp, hpriv]
  have h1 : lookup cfg backend cache now1 ip =
      ⟨.ok info, cacheSet cache ip (now1, info), true, cfg.cache⟩ := by
    simp [lookup, hen, hp, hpriv', hc, hmiss, hsvc, hbk]
  have hget : cacheGet (cacheSet cache ip (now1, info)) ip = some (now1, info) :=
    cacheGet_cacheSet_self cache ip (now1, info)
  have hhit : getCached cfg (cacheSet cache ip (now1, info)) now2 ip = some info := by
    simp [getCached, hget]
    omega
  have h2 : lookup cfg backend (cacheSet cache ip (now1, info)) now2 ip =
      ⟨.ok info, cacheSet cache ip (now1, info), false, cfg.cache⟩ := by
    simp [lookup, hen, hp, hpriv', hc, hhit]
  have hmiss3 : getCached cfg (cacheSet cache ip (now1, info)) now3 ip = none := by
    simp [getCached, hget]
    omega
  have h3 : lookup cfg backend (cacheSet cache ip (now1, info)) now3 ip =
      ⟨.ok info, cacheSet (cacheSet cache ip (now1, info)) ip (now3, info), true,
        cfg.cache⟩ := by
    simp [lookup, hen, hp, hpriv', hc, hmiss3, hsvc, hbk]
  rw [h1]
  refine ⟨rfl, rfl, rfl, ?_, ?_, ?_, ?_, ?_⟩
  · rw [h2]
  · rw [h2]
  · rw [h2]
  · rw [h3]
  · rw [h3]
    exact cacheGet_cacheSet_self _ ip (now3, info)

/-- Witness for C6 at the public IP `8.8.8.8` with TTL 3600: a lookup at
time 0, a second at time 100 (fresh) and a third at time 4000 (stale). -/
theorem lookup_cache_hit_within_ttl_witness :
    (lookup geoCfgW backendOkW [] 0 "8.8.8.8").result = .ok infoW ∧
    (lookup geoCfgW backendOkW [] 0 "8.8.8.8").backendCalled = true ∧
    (lookup geoCfgW backendOkW [] 0 "8.8.8.8").cache =
      cacheSet [] "8.8.8.8" (0, infoW) ∧
    (lookup geoCfgW backendOkW (lookup geoCfgW backendOkW [] 0 "8.8.8.8").cache
      100 "8.8.8.8").result = (lookup geoCfgW backendOkW [] 0 "8.8.8.8").result ∧
    (lookup geoCfgW backendOkW (lookup geoCfgW backendOkW [] 0 "8.8.8.8").cache
      100 "8.8.8.8").backendCalled = false ∧
    (lookup geoCfgW backendOkW (lookup geoCfgW backendOkW [] 0 "8.8.8.8").cache
      100 "8.8.8.8").cache = (lookup geoCfgW backendOkW [] 0 "8.8.8.8").cache ∧
    (lookup geoCfgW backendOkW (lookup geoCfgW backendOkW [] 0 "8.8.8.8").cache
      4000 "8.8.8.8").backendCalled = true ∧
    cacheGet (lookup geoCfgW backendOkW
      (lookup geoCfgW backendOkW [] 0 "8.8.8.8").cache 4000 "8.8.8.8").cache
      "8.8.8.8" = some (4000, infoW) :=
  lookup_cache_hit_within_ttl geoCfgW backendOkW [] 0 100 4000 "8.8.8.8"
    (.v4 8 8 8 8) infoW rfl rfl (by decide) (by decide) rfl rfl rfl
    (by decide) (by decide)

/-- C7: `TestConnector` on a connector whose `Enabled` flag is false runs
that connector's retry sequence (on a copy with the flag temporarily set),
and after the call the owning configuration — in particular the
connector's `Enabled` flag — is exactly as before, whether the test
succeeded or failed. -/
theorem testConnector_restores_config (dispatch : Nat → Option String)
    (cfg : Config) (name : String) (c : ConnectorConfig)
    (hfind : getConnectorByName cfg name = some c)
    (hdis : c.enabled = false) :
    (testConnector dispatch cfg name).config = cfg ∧
    getConnectorByName (testConnector dispatch cfg name).config name = some c ∧
    c.enabled = false ∧
    (testConnector dispatch cfg name).result =
      executeConnector dispatch { c with enabled := true } := by
  refine ⟨?_, ?_, hdis, ?_⟩ <;> simp [testConnector, hfind]

/-- Witness for C7 on a disabled connector whose test dispatch fails. -/
theorem testConnector_restores_config_witness :
    (testConnector dispatchFailW cfgT "email").config = cfgT ∧
    getConnectorByName (testConnector dispatchFailW cfgT "email").config "email" =
      some connC ∧
    connC.enabled = false ∧
    (testConnector dispatchFailW cfgT "email").result =
      executeConnector dispatchFailW { connC with enabled := true } :=
  testConnector_restores_config dispatchFailW cfgT "email" connC (by decide) rfl

/-- Helper: when every attempt fails, the retry loop produces the full
failure trace and wraps the error of its last attempt. -/
theorem execLoop_allFail (dispatch : Nat → Option String) (c : ConnectorConfig)
    (f : Nat → String)
    (hf : ∀ j, attemptOutcome dispatch c j = .failure (f j)) :
    ∀ fuel i lastErr,
      execLoop dispatch c i (fuel + 1) lastErr =
        (failTrace c.retryDelay i (fuel + 1),
         .error (failAfterMsg c (some (f (i + fuel))))) := by
  intro fuel
  induction fuel with
  | zero =>
    intro i lastErr
    simp [execLoop, hf i, failTrace]
  | succ k ih =>
    intro i lastErr
    rw [execLoop]
    simp only [hf i]
    rw [ih (i + 1) (some (f i))]
    have h1 : i + 1 + k = i + (k + 1) := by omega
    rw [h1]
    simp [failTrace]

/-- Helper: the failure trace holds exactly `n` dispatch attempts. -/
theorem failTrace_countP_attempt (d : Int) :
    ∀ n i, (failTrace d i n).countP isAttemptEvent = n := by
  intro n
  induction n with
  | zero => intro i; simp [failTrace]
  | succ k ih =>
    intro i
    by_cases hi : 0 < i <;>
      simp [failTrace, hi, List.countP_cons, isAttemptEvent, isSleepEvent,
        List.countP_append, ih (i + 1)]

/-- Helper: a failure trace starting after the first attempt holds one
sleep per iteration. -/
theorem failTrace_countP_sleep_pos (d : Int) :
    ∀ n i, 0 < i → (failTrace d i n).countP isSleepEvent = n := by
  intro n
  induction n with
  | zero => intro i _; simp [failTrace]
  | succ k ih =>
    intro i hi
    simp [failTrace, hi, List.countP_cons, isAttemptEvent, isSleepEvent,
      List.countP_append, ih (i + 1) (by omega)]

/-- Helper: the failure trace of a sequence of `n + 1` attempts from the
start holds exactly `n` sleeps. -/
theorem failTrace_countP_sleep_zero (d : Int) (n : Nat) :
    (failTrace d 0 (n + 1)).countP isSleepEvent = n := by
  simp [failTrace, List.countP_cons, isSleepEvent,
    failTrace_countP_sleep_pos d n 1 (by omega)]

/-- Helper: every sleep event in a failure trace sleeps for `d` seconds. -/
theorem failTrace_sleep_eq (d : Int) :
    ∀ n i ev, ev ∈ failTrace d i n → isSleepEvent ev = true →
      ev = ExecEvent.sleep d := by
  intro n
  induction n with
  | zero => intro i ev h; simp [failTrace] at h
  | succ k ih =>
    intro i ev hmem hs
    by_cases hi : 0 < i <;> simp [failTrace, hi] at hmem
    · rcases hmem with h | h | h
      · exact h ▸ rfl
      · rw [h] at hs; simp [isSleepEvent] at hs
      · exact ih (i + 1) ev h hs
    · rcases hmem with h | h
      · rw [h] at hs; simp [isSleepEvent] at hs
      · exact ih (i + 1) ev h hs

/-- C2: a connector with `RetryCount = k ≥ 0` whose dispatch always fails
performs exactly `k + 1` dispatch attempts with exactly `k` sleeps of
`RetryDelay` seconds, one before every attempt but the first, and returns
the error naming the connector, reporting `k + 1` attempts, and wrapping
the error of the last attempt. -/
theorem executeConnector_retries_exhausted (dispatch : Nat → Option String)
    (c : ConnectorConfig) (f : Nat → String) (k : Nat)
    (hk : c.retryCount = (k : Int))
    (hf : ∀ j, attemptOutcome dispatch c j = .failure (f j)) :
    executeConnectorRun dispatch c =
      (failTrace c.retryDelay 0 (k + 1),
       .error ("connector " ++ c.name ++ " failed after " ++
         toString ((k : Int) + 1) ++ " attempts: " ++ f k)) ∧
    (failTrace c.retryDelay 0 (k + 1)).countP isAttemptEvent = k + 1 ∧
    (failTrace c.retryDelay 0 (k + 1)).countP isSleepEvent = k ∧
    (∀ ev ∈ failTrace c.retryDelay 0 (k + 1), isSleepEvent ev = true →
      ev = ExecEvent.sleep c.retryDelay) := by
  have hfuel : (c.retryCount + 1).toNat = k + 1 := by
    rw [hk]; omega
  refine ⟨?_, failTrace_countP_attempt c.retryDelay (k + 1) 0,
    failTrace_countP_sleep_zero c.retryDelay k,
    fun ev hmem hs => failTrace_sleep_eq c.retryDelay (k + 1) 0 ev hmem hs⟩
  rw [executeConnectorRun, hfuel, execLoop_allFail dispatch c f hf k 0 none]
  simp [failAfterMsg, renderLastErr, hk]

/-- Witness for C2: a script connector with `RetryCount = 2` and every
dispatch failing runs 3 attempts with 2 sleeps of 5 seconds. -/
theorem executeConnector_retries_exhausted_witness :
    executeConnectorRun dispatchFailW connA =
      (failTrace connA.retryDelay 0 (1 + 1),
       .error ("connector " ++ connA.name ++ " failed after " ++
         toString ((1 : Int) + 1) ++ " attempts: " ++
         "execution failed: exit status 1")) ∧
    (failTrace connA.retryDelay 0 (1 + 1)).countP isAttemptEvent = 1 + 1 ∧
    (failTrace connA.retryDelay 0 (1 + 1)).countP isSleepEvent = 1 ∧
    (∀ ev ∈ failTrace connA.retryDelay 0 (1 + 1), isSleepEvent ev = true →
      ev = ExecEvent.sleep connA.retryDelay) :=
  executeConnector_retries_exhausted dispatchFailW connA
    (fun _ => "execution failed: exit status 1") 1 rfl (fun _ => rfl)

/-- C8: an HTTP connector whose `Settings` lack the `url` key, with
`RetryCount = k ≥ 0`, still enters the retry loop and performs all `k + 1`
dispatch attempts, each failing with the same missing-`url` error, and
finally returns the retries-exhausted wrapper around that error. -/
theorem http_missing_url_consumes_retries (dispatch : Nat → Option String)
    (c : ConnectorConfig) (k : Nat)
    (htype : c.type = "http")
    (hurl : getSetting c.settings "url" = none)
    (hk : c.retryCount = (k : Int)) :
    executeConnectorRun dispatch c =
      (failTrace c.retryDelay 0 (k + 1),
       .error ("connector " ++ c.name ++ " failed after " ++
         toString ((k : Int) + 1) ++ " attempts: " ++
         "HTTP connector missing 'url' setting")) ∧
    (∀ j, attemptOutcome dispatch c j =
      .failure "HTTP connector missing 'url' setting") ∧
    (failTrace c.retryDelay 0 (k + 1)).countP isAttemptEvent = k + 1 := by
  have hf : ∀ j, attemptOutcome dispatch c j =
      .failure "HTTP connector missing 'url' setting" := by
    intro j
    simp [attemptOutcome, htype, hurl]
  refine ⟨?_, hf, failTrace_countP_attempt c.retryDelay (k + 1) 0⟩
  have hfuel : (c.retryCount + 1).toNat = k + 1 := by
    rw [hk]; omega
  rw [executeConnectorRun, hfuel,
    execLoop_allFail dispatch c (fun _ => "HTTP connector missing 'url' setting")
      hf k 0 none]
  simp [failAfterMsg, renderLastErr, hk]

/-- Witness for C8: the url-less HTTP connector with `RetryCount = 2`
performs all 3 attempts and wraps the missing-setting error. -/
theorem http_missing_url_consumes_retries_witness :
    executeConnectorRun dispatchFailW connNoUrl =
      (failTrace connNoUrl.retryDelay 0 (2 + 1),
       .error ("connector " ++ connNoUrl.name ++ " failed after " ++
         toString ((2 : Int) + 1) ++ " attempts: " ++
         "HTTP connector missing 'url' setting")) ∧
    (∀ j, attemptOutcome dispatchFailW connNoUrl j =
      .failure "HTTP connector missing 'url' setting") ∧
    (failTrace connNoUrl.retryDelay 0 (2 + 1)).countP isAttemptEvent = 2 + 1 :=
  http_missing_url_consumes_retries dispatchFailW connNoUrl 2 rfl rfl rfl

/-- C9: `DiscoverConnectors` proposes exactly one connector per listed
regular file with an executable permission bit (directories, entries whose
`Info()` fails, non-executable files and non-absolute joined paths are
skipped), with Type `script` for known interpreter suffixes and
`executable` otherwise, `Enabled = false` and default
Timeout/RetryCount/RetryDelay; a non-existent directory yields an empty
list and no error; and on a directory holding executable `foo.sh` and
non-executable `bar.txt` exactly the `foo` script proposal is returned. -/
theorem discoverConnectors_spec :
    (∀ (path : String) (err : Option String) (entries : List DirEntry),
      discoverConnectors path false err entries = .ok []) ∧
    (∀ (path : String) (entries : List DirEntry),
      discoverConnectors path true none entries =
        .ok (entries.filterMap (discoverEntry path))) ∧
    (∀ (path : String) (e : DirEntry),
      discoverEntry path e =
        (if e.isDir = true ∨ e.infoErr = true ∨ Nat.land e.mode 0o111 = 0 ∨
            isAbsPath (path ++ "/" ++ e.name) = false
         then none
         else some
           { name := trimExt e.name
             type := if hasScriptExt e.name then "script" else "executable"
             enabled := false
             path := path ++ "/" ++ e.name
             settings := []
             timeout := 30
             retryCount := 2
             retryDelay := 5
             description := "Auto-discovered " ++
               (if hasScriptExt e.name then "script" else "executable") ++
               " connector" })) ∧
    discoverConnectors "/etc/fail2ban/connectors" true none [fooEntry, barEntry] =
      .ok [⟨"foo", "script", false, "/etc/fail2ban/connectors/foo.sh", [],
            30, 2, 5, "Auto-discovered script connector"⟩] := by
  refine ⟨?_, ?_, ?_, ?_⟩
  · intro path err entries
    simp [discoverConnectors]
  · intro path entries
    simp [discoverConnectors]
  · intro path e
    by_cases h1 : e.isDir
    · simp [discoverEntry, h1]
    · by_cases h2 : e.infoErr
      · simp [discoverEntry, h1, h2]
      · by_cases h3 : Nat.land e.mode 0o111 = 0
        · simp [discoverEntry, h1, h2, h3]
        · by_cases h4 : isAbsPath (path ++ "/" ++ e.name)
          · simp [discoverEntry, h1, h2, h3, h4]
          · simp [discoverEntry, h1, h2, h3, h4]
  · rfl

/-- Witness instantiating C9's per-entry characterisation at the two
concrete directory entries. -/
theorem discoverConnectors_spec_witness :
    discoverConnectors "/etc/fail2ban/connectors" false none [fooEntry, barEntry] =
      .ok [] ∧
    discoverEntry "/etc/fail2ban/connectors" fooEntry =
      (if fooEntry.isDir = true ∨ fooEntry.infoErr = true ∨
          Nat.land fooEntry.mode 0o111 = 0 ∨
          isAbsPath ("/etc/fail2ban/connectors" ++ "/" ++ fooEntry.name) = false
       then none
       else some
         { name := trimExt fooEntry.name
           type := if hasScriptExt fooEntry.name then "script" else "executable"
           enabled := false
           path := "/etc/fail2ban/connectors" ++ "/" ++ fooEntry.name
           settings := []
           timeout := 30
           retryCount := 2
           retryDelay := 5
           description := "Auto-discovered " ++
             (if hasScriptExt fooEntry.name then "script" else "executable") ++
             " connector" }) :=
  ⟨discoverConnectors_spec.1 "/etc/fail2ban/connectors" none [fooEntry, barEntry],
   discoverConnectors_spec.2.2.1 "/etc/fail2ban/connectors" fooEntry⟩

/-- Helper: a connector passes `validateConnector` (at any index) exactly
when it is individually valid. -/
theorem validateConnector_none_iff (i : Nat) (c : ConnectorConfig) :
    validateConnector i c = none ↔ connectorValid c := by
  by_cases h1 : c.name = ""
  · simp [validateConnector, connectorValid, h1]
  · by_cases h3 : c.type = "script" ∨ c.type = "executable" ∨ c.type = "http"
    · rcases h3 with h | h | h
      · by_cases hp : c.path = "" <;>
          simp [validateConnector, connectorValid, h1, h, hp]
      · by_cases hp : c.path = "" <;>
          simp [validateConnector, connectorValid, h1, h, hp]
      · by_cases hu : getSetting c.settings "url" = none <;>
          simp [validateConnector, connectorValid, h1, h, hu]
    · have h2 : ¬ (["script", "executable", "http"].contains c.type = true) := by
        simpa using h3
      by_cases he : c.type = ""
      · simp [validateConnector, connectorValid, h1, he, h3]
      · simp [validateConnector, connectorValid, h1, he, h2, h3]

/-- Helper: the connector-validation loop succeeds (from any start index)
exactly when every connector in the list is individually valid. -/
theorem validateConnectorsLoop_ok_iff (gt : Int) :
    ∀ (l : List ConnectorConfig) (i : Nat),
      (∃ l', validateConnectorsLoop gt i l = .ok l') ↔
        ∀ c ∈ l, connectorValid c := by
  intro l
  induction l with
  | nil => intro i; simp [validateConnectorsLoop]
  | cons c rest ih =>
    intro i
    constructor
    · intro ⟨l', hl⟩ c' hc'
      simp only [validateConnectorsLoop] at hl
      cases hv : validateConnector i c with
      | some e => rw [hv] at hl; simp at hl
      | none =>
        rw [hv] at hl
        have hcv : connectorValid c := (validateConnector_none_iff i c).1 hv
        cases hrec : validateConnectorsLoop gt (i + 1) rest with
        | error e => rw [hrec] at hl; simp at hl
        | ok rest' =>
          have hrest : ∀ x ∈ rest, connectorValid x :=
            (ih (i + 1)).1 ⟨rest', hrec⟩
          rcases List.mem_cons.1 hc' with h | h
          · exact h ▸ hcv
          · exact hrest c' h
    · intro hall
      have hcv : validateConnector i c = none :=
        (validateConnector_none_iff i c).2 (hall c (by simp))
      have hrest : ∃ l', validateConnectorsLoop gt (i + 1) rest = .ok l' :=
        (ih (i + 1)).2 (fun x hx => hall x (by simp [hx]))
      rcases hrest with ⟨l', hl'⟩
      refine ⟨normalizeConnector gt c :: l', ?_⟩
      simp [validateConnectorsLoop, hcv, hl']

/-- Counterexample to C3: a configuration holding two connectors with the
same name passes `ValidateConfig` — duplicate names are not rejected. -/
theorem validateConfig_accepts_duplicate_names :
    validateConfig dupConfig = .ok dupConfig := rfl

/-- C3 (amended): `ValidateConfig` succeeds exactly when the connector
path is non-empty and every connector is individually valid; connector
names play no role beyond being non-empty, so duplicate names are
accepted. -/
theorem validateConfig_ok_iff (cfg : Config) :
    (∃ cfg', validateConfig cfg = .ok cfg') ↔
      (cfg.connectorPath ≠ "" ∧ ∀ c ∈ cfg.connectors, connectorValid c) := by
  by_cases hp : cfg.connectorPath = ""
  · simp [validateConfig, hp]
  · constructor
    · intro ⟨cfg', h⟩
      simp only [validateConfig, hp] at h
      refine ⟨hp, ?_⟩
      cases hl : validateConnectorsLoop (if cfg.timeout ≤ 0 then 30 else cfg.timeout)
          0 cfg.connectors with
      | error e => rw [hl] at h; simp at h
      | ok conns =>
        exact (validateConnectorsLoop_ok_iff _ cfg.connectors 0).1 ⟨conns, hl⟩
    · intro ⟨_, hall⟩
      rcases (validateConnectorsLoop_ok_iff
          (if cfg.timeout ≤ 0 then 30 else cfg.timeout) cfg.connectors 0).2 hall
        with ⟨conns, hl⟩
      refine ⟨{ cfg with
          timeout := if cfg.timeout ≤ 0 then 30 else cfg.timeout
          connectors := conns
          geoip := validateGeoIPConfig cfg.geoip }, ?_⟩
      simp [validateConfig, hp, hl]

/-- Witness for the amended C3 at the duplicate-name configuration: both
sides of the characterisation hold there. -/
theorem validateConfig_ok_iff_witness :
    (∃ cfg', validateConfig dupConfig = .ok cfg') ↔
      (dupConfig.connectorPath ≠ "" ∧
        ∀ c ∈ dupConfig.connectors, connectorValid c) :=
  validateConfig_ok_iff dupConfig

/-- Helper: a string occurs in itself. -/
theorem strOccurs_self (s : String) : strOccurs s s :=
  ⟨[], [], by simp⟩

/-- Helper: occurrence is preserved by prepending text. -/
theorem strOccurs_append_left (p n h : String) (ho : strOccurs n h) :
    strOccurs n (p ++ h) := by
  rcases ho with ⟨u, v, huv⟩
  exact ⟨p.data ++ u, v, by simp [← huv]⟩

/-- Helper: occurrence is preserved by appending text. -/
theorem strOccurs_append_right (n h s : String) (ho : strOccurs n h) :
    strOccurs n (h ++ s) := by
  rcases ho with ⟨u, v, huv⟩
  exact ⟨u, v ++ s.data, by simp [← huv]⟩

/-- Helper: occurrence is transitive. -/
theorem strOccurs_trans {a b c : String} (h1 : strOccurs a b)
    (h2 : strOccurs b c) : strOccurs a c := by
  rcases h1 with ⟨u, v, h⟩
  rcases h2 with ⟨w, x, h'⟩
  refine ⟨w ++ u, v ++ x, ?_⟩
  rw [← h', ← h]
  simp [List.append_assoc]

/-- Helper: every member of a list occurs in its separator join. -/
theorem strOccurs_joinSep (sep : String) :
    ∀ (l : List String) (s : String), s ∈ l → strOccurs s (joinSep sep l) := by
  intro l
  induction l with
  | nil => intro s h; simp at h
  | cons x rest ih =>
    intro s h
    cases rest with
    | nil =>
      simp at h
      subst h
      exact strOccurs_self s
    | cons y t =>
      simp only [joinSep]
      rcases List.mem_cons.1 h with h | h
      · subst h
        exact strOccurs_append_right s (s ++ sep) _
          (strOccurs_append_right s s sep (strOccurs_self s))
      · exact strOccurs_append_left (x ++ sep) s _ (ih s h)

/-- C1: `ExecuteAll` under any failure-collection order that is a
permutation of the enabled-connector list satisfies the aggregate
contract `ExecuteAllSpec`: immediate `no enabled connectors found` error
when nothing is enabled; success exactly when every enabled connector's
retry sequence succeeds; on failure a single aggregate error whose
message contains every failing connector's name, built only from failure
entries of failing connectors. -/
theorem executeAll_aggregate (dispatches : Nat → Nat → Option String)
    (cfg : Config) (pairs : List (Nat × ConnectorConfig))
    (hperm : pairs.Perm (enabledEnum cfg)) :
    ExecuteAllSpec dispatches cfg pairs := by
  have hcoll : (collectErrors dispatches pairs).Perm
      (collectErrors dispatches (enabledEnum cfg)) :=
    hperm.filterMap _
  refine ⟨?_, ?_, ?_, ?_⟩
  · intro h
    simp [executeAllFrom, h]
  · intro hne
    have hisE : (getEnabledConnectors cfg).isEmpty = false := by
      cases h : getEnabledConnectors cfg with
      | nil => exact absurd h hne
      | cons a l => simp
    constructor
    · intro hok
      have hnil : collectErrors dispatches pairs = [] := by
        cases hc : collectErrors dispatches pairs with
        | nil => rfl
        | cons x xs => simp [executeAllFrom, hisE, hc] at hok
      have henum : collectErrors dispatches (enabledEnum cfg) = [] := by
        rw [hnil] at hcoll
        exact hcoll.symm.eq_nil
      intro p hp
      have hnone := List.filterMap_eq_nil_iff.1 henum p hp
      unfold connOk
      cases hr : executeConnector (dispatches p.1) p.2 with
      | ok u => rfl
      | error e => rw [hr] at hnone; simp at hnone
    · intro hall
      have henum : collectErrors dispatches (enabledEnum cfg) = [] := by
        apply List.filterMap_eq_nil_iff.2
        intro p hp
        have hok := hall p hp
        unfold connOk at hok
        simp [hok]
      have hnil : collectErrors dispatches pairs = [] := by
        rw [henum] at hcoll
        exact hcoll.eq_nil
      simp [executeAllFrom, hisE, hnil]
  · intro hne p hp e herr
    have hisE : (getEnabledConnectors cfg).isEmpty = false := by
      cases h : getEnabledConnectors cfg with
      | nil => exact absurd h hne
      | cons a l => simp
    have hentry : failureEntry p.2 e ∈ collectErrors dispatches (enabledEnum cfg) :=
      List.mem_filterMap.2 ⟨p, hp, by simp [herr]⟩
    have hmem : failureEntry p.2 e ∈ collectErrors dispatches pairs :=
      hcoll.mem_iff.2 hentry
    obtain ⟨x, xs, hc⟩ : ∃ x xs, collectErrors dispatches pairs = x :: xs := by
      cases hc : collectErrors dispatches pairs with
      | nil => rw [hc] at hmem; simp at hmem
      | cons x xs => exact ⟨x, xs, rfl⟩
    constructor
    · simp [executeAllFrom, hisE, hc]
    · have h1 : strOccurs p.2.name (failureEntry p.2 e) := by
        unfold failureEntry
        exact strOccurs_append_right _ _ _
          (strOccurs_append_right _ _ _
            (strOccurs_append_left "connector " _ _ (strOccurs_self _)))
      have h2 : strOccurs (failureEntry p.2 e)
          (joinSep "; " (collectErrors dispatches pairs)) :=
        strOccurs_joinSep "; " _ _ hmem
      exact strOccurs_append_left "connector failures: " _ _
        (strOccurs_trans h1 h2)
  · intro s hs
    rcases List.mem_filterMap.1 hs with ⟨p, hp, hfp⟩
    refine ⟨p, hperm.mem_iff.1 hp, ?_⟩
    cases hr : executeConnector (dispatches p.1) p.2 with
    | ok u => rw [hr] at hfp; simp at hfp
    | error e =>
      rw [hr] at hfp
      simp at hfp
      exact ⟨e, rfl, hfp.symm⟩

/-- Witness for C1: a two-enabled-connector configuration with one failing
and one succeeding connector, collected in reverse completion order. -/
theorem executeAll_aggregate_witness :
    pairsW.Perm (enabledEnum cfgW) ∧ ExecuteAllSpec dispatchesW cfgW pairsW :=
  ⟨by decide, executeAll_aggregate dispatchesW cfgW pairsW (by decide)⟩

end F2BN
